import Mathlib

/-!
# Verification of the Convex chrome-extension todo template

Shallow embedding of the repository's two source layers:

* the Convex backend (`convex/schema.ts` and `convex/todos.ts`, reproduced in
  `blog/guide.md`): a `todos` table with fields `text : string` and
  `isCompleted : boolean`, plus the platform-assigned `_id` and
  `_creationTime`, and the four functions `list`, `add`, `toggle`, `remove`;
* the React popup client (`src/App.tsx`): `handleSubmit`, the derived
  `remaining` counter, the three-way list view and the footer condition.

The external platform's document store (`ctx.db`) is modelled as a list of
documents together with counters supplying fresh ids and creation times.
-/

/-- A document of the `todos` table.  `_id` and `_creationTime` are the
platform-assigned fields; `text` and `isCompleted` are the two schema fields
from `convex/schema.ts`. -/
structure Todo where
  _id : Nat
  _creationTime : Nat
  text : String
  isCompleted : Bool
deriving DecidableEq, Repr

/-- The platform's document store for the `todos` table: the stored rows in
insertion order, plus counters from which the platform assigns the `_id` and
`_creationTime` of the next inserted document. -/
structure DB where
  rows : List Todo
  nextId : Nat
  nextTime : Nat
deriving DecidableEq, Repr

/-- `ctx.db.insert("todos", doc)`: append a document with fresh platform
fields. -/
def DB.insert (db : DB) (text : String) (isCompleted : Bool) : DB :=
  { rows := db.rows ++ [⟨db.nextId, db.nextTime, text, isCompleted⟩]
    nextId := db.nextId + 1
    nextTime := db.nextTime + 1 }

/-- `ctx.db.get(id)`: the document whose `_id` matches, if any. -/
def DB.get (db : DB) (id : Nat) : Option Todo :=
  db.rows.find? (fun t => t._id == id)

/-- `ctx.db.patch(id, { isCompleted: b })`: overwrite the `isCompleted` field
of the document whose `_id` matches, leaving all other fields and documents
unchanged. -/
def DB.patchCompleted (db : DB) (id : Nat) (b : Bool) : DB :=
  { db with
    rows := db.rows.map (fun t => if t._id == id then { t with isCompleted := b } else t) }

/-- `ctx.db.delete(id)`: remove the document whose `_id` matches.  Per the
spec's contract for the external platform (§4.1), a delete of a missing id
silently succeeds, so this is a plain filter. -/
def DB.delete (db : DB) (id : Nat) : DB :=
  { db with rows := db.rows.filter (fun t => t._id != id) }

/-- The ordering used by `list`: `.order("desc")` orders documents by
`_creationTime`, newest first. -/
def newerFirst (a b : Todo) : Prop :=
  b._creationTime ≤ a._creationTime

instance : DecidableRel newerFirst :=
  fun a b => inferInstanceAs (Decidable (b._creationTime ≤ a._creationTime))

instance : IsTotal Todo newerFirst :=
  ⟨fun a b => Nat.le_total b._creationTime a._creationTime⟩

instance : IsTrans Todo newerFirst :=
  ⟨fun _ _ _ hab hbc => Nat.le_trans hbc hab⟩

/-- `list` (`convex/todos.ts`): `ctx.db.query("todos").order("desc").collect()`
— all documents, ordered by creation time descending. -/
def list (db : DB) : List Todo :=
  List.insertionSort newerFirst db.rows

/-- `add` (`convex/todos.ts`): insert `{ text, isCompleted: false }`. -/
def add (db : DB) (text : String) : DB :=
  db.insert text false

/-- `toggle` (`convex/todos.ts`): get the document; throw
`"Todo not found"` if absent, else patch `isCompleted` to its negation. -/
def toggle (db : DB) (id : Nat) : Except String DB :=
  match db.get id with
  | none => Except.error "Todo not found"
  | some todo => Except.ok (db.patchCompleted id (!todo.isCompleted))

/-- `remove` (`convex/todos.ts`): delete the document, no existence check. -/
def remove (db : DB) (id : Nat) : DB :=
  db.delete id

/-- `toggle` applied `n` times in sequence, propagating a thrown error. -/
def toggleN (id : Nat) : Nat → DB → Except String DB
  | 0, db => Except.ok db
  | n + 1, db =>
    match toggle db id with
    | Except.error e => Except.error e
    | Except.ok db2 => toggleN id n db2

/-- A mutation call issued by the client (`useMutation` reference invoked with
its argument object). -/
inductive Call where
  | add (text : String)
  | toggle (id : Nat)
  | remove (id : Nat)
deriving DecidableEq, Repr

/-- JavaScript `String.prototype.trim`: remove leading and trailing
whitespace. -/
def trim (s : String) : String :=
  String.mk (((s.data.dropWhile Char.isWhitespace).reverse.dropWhile
    Char.isWhitespace).reverse)

/-- `handleSubmit` (`src/App.tsx`): trim the input buffer; if the trimmed text
is empty (JS falsy) return without issuing a call and leave the buffer;
otherwise issue `addTodo({ text })` and clear the buffer.  Returns the new
buffer contents and the list of calls issued. -/
def handleSubmit (input : String) : String × List Call :=
  let text := trim input
  if text = "" then (input, [])
  else ("", [Call.add text])

/-- `remaining` (`src/App.tsx`):
`todos?.filter((t) => !t.isCompleted).length ?? 0`. -/
def remaining (todos : Option (List Todo)) : Nat :=
  match todos with
  | none => 0
  | some ts => (ts.filter (fun t => !t.isCompleted)).length

/-- The checkbox `onChange` handler (`src/App.tsx`): issues
`toggleTodo({ id: todo._id })` — only the rendered todo's `_id` is passed. -/
def onChangeCall (todo : Todo) : Call :=
  Call.toggle todo._id

/-- Effect of a client call on the store; a mutation that throws leaves the
store unchanged (the rejection is unhandled on the client). -/
def applyCall (db : DB) : Call → DB
  | Call.add s => add db s
  | Call.toggle i =>
    match toggle db i with
    | Except.ok db2 => db2
    | Except.error _ => db
  | Call.remove i => remove db i

/-- Effect of a sequence of client calls on the store. -/
def applyCalls (db : DB) (cs : List Call) : DB :=
  cs.foldl applyCall db

/-- The three mutually exclusive states of the list area in `App`'s JSX. -/
inductive ListState where
  | loading
  | empty
  | populated (items : List Todo)
deriving DecidableEq, Repr

/-- The list-area conditional of `src/App.tsx`:
`todos === undefined ? Loading : todos.length === 0 ? Empty : Populated`. -/
def listState (todos : Option (List Todo)) : ListState :=
  match todos with
  | none => ListState.loading
  | some ts => if ts.length = 0 then ListState.empty else ListState.populated ts

/-- The placeholder message rendered by each list state (`src/App.tsx`). -/
def stateMessage : ListState → Option String
  | ListState.loading => some "Loading..."
  | ListState.empty => some "No todos yet. Add one above!"
  | ListState.populated _ => none

/-- The footer condition of `src/App.tsx`: `todos && todos.length > 0`
(an `undefined` subscription is falsy; an array, even empty, is truthy, so
the length test decides). -/
def footerShown (todos : Option (List Todo)) : Bool :=
  match todos with
  | none => false
  | some ts => decide (ts.length > 0)

deriving instance DecidableEq for Except

/-- A concrete todo used by the witnesses. -/
def t0 : Todo :=
  ⟨0, 0, "buy milk", false⟩

/-- A concrete store used by the witnesses: one uncompleted todo. -/
def db0 : DB :=
  { rows := [t0], nextId := 1, nextTime := 1 }

/-! ## Helper lemmas -/

/-- With pairwise-distinct `_id`s, looking up the `_id` of a stored document
finds exactly that document. -/
theorem find?_eq_of_mem_nodup :
    ∀ (rows : List Todo) (t : Todo), (rows.map Todo._id).Nodup → t ∈ rows →
      rows.find? (fun u => u._id == t._id) = some t
  | [], t, _, ht => absurd ht (List.not_mem_nil t)
  | u :: us, t, hnd, ht => by
    rcases List.mem_cons.mp ht with rfl | hts
    · simp
    · have hne : u._id ≠ t._id := by
        intro he
        exact (List.nodup_cons.mp hnd).1 (he ▸ List.mem_map_of_mem Todo._id hts)
      have : (u._id == t._id) = false := by simpa using hne
      simp only [List.find?_cons, this]
      exact find?_eq_of_mem_nodup us t (List.nodup_cons.mp hnd).2 hts

/-- Patching the `isCompleted` field does not change the `_id`s of the
stored documents. -/
theorem map_id_patch (rows : List Todo) (id : Nat) (b : Bool) :
    ((rows.map (fun t => if t._id == id then { t with isCompleted := b } else t)).map
        Todo._id) = rows.map Todo._id := by
  induction rows with
  | nil => rfl
  | cons u us ih =>
    by_cases h : u._id = id
    · simpa [h] using ih
    · simpa [h] using ih

/-- If a lookup finds `t`, the same lookup after patching `isCompleted` to `b`
finds `t` with its flag overwritten. -/
theorem find?_map_patch :
    ∀ (rows : List Todo) (id : Nat) (b : Bool) (t : Todo),
      rows.find? (fun u => u._id == id) = some t →
      (rows.map (fun u => if u._id == id then { u with isCompleted := b } else u)).find?
          (fun u => u._id == id) = some { t with isCompleted := b }
  | [], _, _, _, hf => by simp at hf
  | u :: us, id, b, t, hf => by
    by_cases h : u._id = id
    · have : u = t := by
        simpa [List.find?_cons, h] using hf
      subst this
      simp [h]
    · have hf' : us.find? (fun u => u._id == id) = some t := by
        simpa [List.find?_cons, h] using hf
      simpa [h] using find?_map_patch us id b t hf'

/-- One successful `toggle` step: on a store with distinct `_id`s containing
`t`, `toggle` at `t._id` succeeds, the result stores `t` with its flag
negated, and the `_id`s (hence their distinctness) are unchanged. -/
theorem toggle_step (db : DB) (t : Todo)
    (hnd : (db.rows.map Todo._id).Nodup) (ht : t ∈ db.rows) :
    toggle db t._id = Except.ok (db.patchCompleted t._id (!t.isCompleted)) ∧
    { t with isCompleted := !t.isCompleted } ∈
      (db.patchCompleted t._id (!t.isCompleted)).rows ∧
    (db.patchCompleted t._id (!t.isCompleted)).get t._id =
      some { t with isCompleted := !t.isCompleted } ∧
    ((db.patchCompleted t._id (!t.isCompleted)).rows.map Todo._id).Nodup := by
  have hget : db.get t._id = some t := find?_eq_of_mem_nodup db.rows t hnd ht
  have hget' : (db.patchCompleted t._id (!t.isCompleted)).get t._id =
      some { t with isCompleted := !t.isCompleted } :=
    find?_map_patch db.rows t._id (!t.isCompleted) t hget
  refine ⟨?_, ?_, hget', ?_⟩
  · simp [toggle, hget]
  · exact List.mem_of_find?_eq_some hget'
  · show ((db.rows.map _).map Todo._id).Nodup
    rw [map_id_patch]
    exact hnd

/-- After `n` successful toggles starting from a store with distinct `_id`s
containing `t`, the stored document at `t._id` is `t` with its flag negated
iff `n` is odd. -/
theorem toggleN_ok (id : Nat) :
    ∀ (n : Nat) (db : DB) (t : Todo),
      (db.rows.map Todo._id).Nodup → t ∈ db.rows → t._id = id →
      ∃ db2, toggleN id n db = Except.ok db2 ∧
        db2.get id =
          some { t with isCompleted := if n % 2 = 0 then t.isCompleted else !t.isCompleted }
  | 0, db, t, hnd, ht, hid => by
    subst hid
    exact ⟨db, rfl, by simpa using find?_eq_of_mem_nodup db.rows t hnd ht⟩
  | n + 1, db, t, hnd, ht, hid => by
    subst hid
    obtain ⟨hstep, hmem, _, hnd2⟩ := toggle_step db t hnd ht
    obtain ⟨db2, hrun, hget2⟩ :=
      toggleN_ok t._id n (db.patchCompleted t._id (!t.isCompleted))
        { t with isCompleted := !t.isCompleted } hnd2 hmem rfl
    refine ⟨db2, ?_, ?_⟩
    · simp only [toggleN, hstep]
      exact hrun
    · rw [hget2]
      rcases Nat.mod_two_eq_zero_or_one n with h | h
      · have h2 : (n + 1) % 2 = 1 := by omega
        simp [h, h2]
      · have h2 : (n + 1) % 2 = 0 := by omega
        simp [h, h2]

/-! ## Claim theorems -/

/-- C1: For every input string that is non-empty after trimming, submitting
the form issues exactly one `add` call whose argument is the trimmed string,
the created record has `text` equal to the trimmed input and `isCompleted`
false, and the input buffer is cleared to `""` unconditionally — the cleared
buffer does not depend on the store or on the call's outcome. -/
theorem handleSubmit_nonempty_adds_trimmed (input : String) (h : trim input ≠ "") :
    (handleSubmit input).2 = [Call.add (trim input)] ∧
    (handleSubmit input).1 = "" ∧
    ∀ db : DB, (add db (trim input)).rows =
      db.rows ++ [⟨db.nextId, db.nextTime, trim input, false⟩] := by
  refine ⟨?_, ?_, fun db => rfl⟩ <;> simp [handleSubmit, h]

/-- Witness for C1 at the concrete input `"  buy milk "`. -/
theorem handleSubmit_nonempty_adds_trimmed_witness :
    (handleSubmit "  buy milk ").2 = [Call.add (trim "  buy milk ")] :=
  (handleSubmit_nonempty_adds_trimmed "  buy milk " (by decide)).1

/-- C2: `toggle` fails with the `"Todo not found"` error iff no stored
document has the requested `_id`; when one does, `toggle` succeeds and the
resulting store holds that document with its `isCompleted` flag negated. -/
theorem toggle_not_found_iff_and_flips (db : DB) (id : Nat)
    (hnd : (db.rows.map Todo._id).Nodup) :
    (toggle db id = Except.error "Todo not found" ↔ ¬ ∃ t ∈ db.rows, t._id = id) ∧
    ∀ t ∈ db.rows, t._id = id →
      toggle db id = Except.ok (db.patchCompleted id (!t.isCompleted)) ∧
      (db.patchCompleted id (!t.isCompleted)).get id =
        some { t with isCompleted := !t.isCompleted } := by
  constructor
  · constructor
    · rintro herr ⟨t, ht, hid⟩
      subst hid
      rw [(toggle_step db t hnd ht).1] at herr
      exact absurd herr (by simp)
    · intro hno
      have hget : db.get id = none := by
        refine List.find?_eq_none.mpr fun a ha => ?_
        simp only [beq_iff_eq]
        exact fun he => hno ⟨a, ha, he⟩
      simp [toggle, hget]
  · intro t ht hid
    subst hid
    exact ⟨(toggle_step db t hnd ht).1, (toggle_step db t hnd ht).2.2.1⟩

/-- Witness for C2: on the one-todo store, toggling a missing id fails with
the "not found" error. -/
theorem toggle_not_found_iff_and_flips_witness :
    toggle db0 5 = Except.error "Todo not found" :=
  ((toggle_not_found_iff_and_flips db0 5 (by decide)).1).mpr (by decide)

/-- C3: `remove` deletes exactly the document with the requested `_id`; when
no stored document has that `_id`, it silently succeeds and leaves the store
entirely unchanged (no existence check, no error — `remove` is total). -/
theorem remove_deletes_and_silently_succeeds (db : DB) (id : Nat) :
    (∀ t : Todo, t ∈ (remove db id).rows ↔ t ∈ db.rows ∧ t._id ≠ id) ∧
    ((∀ t ∈ db.rows, t._id ≠ id) → remove db id = db) := by
  constructor
  · intro t
    simp [remove, DB.delete, List.mem_filter]
  · intro hall
    have h2 : db.rows.filter (fun t => t._id != id) = db.rows :=
      List.filter_eq_self.mpr fun a ha => by simpa using hall a ha
    simp only [remove, DB.delete, h2]

/-- Witness for C3: removing a missing id from the one-todo store returns the
store unchanged. -/
theorem remove_deletes_and_silently_succeeds_witness :
    remove db0 5 = db0 :=
  (remove_deletes_and_silently_succeeds db0 5).2 (by decide)

/-- C4: for every delivered list, including the empty one, the `remaining`
counter equals the number of records whose completion flag is false. -/
theorem remaining_counts_uncompleted (l : List Todo) :
    remaining (some l) = l.countP (fun t => t.isCompleted == false) := by
  have hp : (fun t : Todo => !t.isCompleted) = (fun t : Todo => t.isCompleted == false) := by
    funext t
    cases t.isCompleted <;> rfl
  simp [remaining, List.countP_eq_length_filter, hp]

/-- C5: `list` returns all stored documents (a permutation of the stored
rows) ordered newest-created first, i.e. descending by `_creationTime`. -/
theorem list_all_newest_first (db : DB) :
    List.Perm (list db) db.rows ∧
    List.Sorted (fun a b : Todo => b._creationTime ≤ a._creationTime) (list db) :=
  ⟨List.perm_insertionSort newerFirst db.rows,
   List.sorted_insertionSort newerFirst db.rows⟩

/-- C6: on a store with distinct `_id`s containing `t`, toggling `t._id` an
even number of times leaves the stored completion flag at its original value,
and an odd number of times leaves it at the negation of its original value. -/
theorem toggle_parity (db : DB) (t : Todo) (n : Nat)
    (hnd : (db.rows.map Todo._id).Nodup) (ht : t ∈ db.rows) :
    ∃ db2, toggleN t._id n db = Except.ok db2 ∧
      (n % 2 = 0 → db2.get t._id = some t) ∧
      (n % 2 = 1 → db2.get t._id = some { t with isCompleted := !t.isCompleted }) := by
  obtain ⟨db2, hrun, hget⟩ := toggleN_ok t._id n db t hnd ht rfl
  refine ⟨db2, hrun, fun h => ?_, fun h => ?_⟩
  · rw [hget]
    simp [h]
  · rw [hget]
    simp [h]

/-- Witness for C6 at three toggles of the concrete store's only todo. -/
theorem toggle_parity_witness :
    ∃ db2, toggleN t0._id 3 db0 = Except.ok db2 ∧
      (3 % 2 = 0 → db2.get t0._id = some t0) ∧
      (3 % 2 = 1 → db2.get t0._id = some { t0 with isCompleted := !t0.isCompleted }) :=
  toggle_parity db0 t0 3 (by decide) (by decide)

/-- C7: for every input that trims to the empty string, submitting the form
issues no call and leaves the buffer unchanged, so the store is unchanged. -/
theorem empty_submit_noop (input : String) (h : trim input = "") :
    handleSubmit input = (input, []) ∧
    ∀ db : DB, applyCalls db (handleSubmit input).2 = db := by
  have h1 : handleSubmit input = (input, []) := by simp [handleSubmit, h]
  exact ⟨h1, fun db => by rw [h1]; rfl⟩

/-- Witness for C7 at a whitespace-only input. -/
theorem empty_submit_noop_witness :
    handleSubmit "   " = ("   ", []) :=
  (empty_submit_noop "   " (by decide)).1

/-- C8: the list view renders exactly one of three mutually exclusive states
— loading iff the subscription has not delivered, empty iff the delivered
list has zero records (with the "No todos yet. Add one above!" message and
the footer absent), populated iff it has at least one (with the footer
shown). -/
theorem listState_trichotomy (todos : Option (List Todo)) :
    (listState todos = ListState.loading ↔ todos = none) ∧
    (listState todos = ListState.empty ↔ todos = some []) ∧
    (∀ l : List Todo, todos = some l → l ≠ [] → listState todos = ListState.populated l) ∧
    (listState todos = ListState.empty →
      stateMessage (listState todos) = some "No todos yet. Add one above!" ∧
      footerShown todos = false) ∧
    (∀ l : List Todo, listState todos = ListState.populated l → footerShown todos = true) := by
  cases todos with
  | none => simp [listState, footerShown]
  | some ts =>
    cases ts with
    | nil => simp [listState, stateMessage, footerShown]
    | cons a as => simp [listState, stateMessage, footerShown]

/-- Witness for C8 at the delivered empty list. -/
theorem listState_trichotomy_witness :
    stateMessage (listState (some ([] : List Todo))) = some "No todos yet. Add one above!" ∧
    footerShown (some ([] : List Todo)) = false :=
  (listState_trichotomy (some [])).2.2.2.1 rfl

/-- C9: every `add` call issued by the client's form submission carries a
non-empty text, and the record it creates stores exactly that text with
`isCompleted` false. -/
theorem add_call_nonempty_uncompleted (input s : String)
    (h : Call.add s ∈ (handleSubmit input).2) :
    s ≠ "" ∧
    ∀ db : DB, (add db s).rows = db.rows ++ [⟨db.nextId, db.nextTime, s, false⟩] := by
  by_cases ht : trim input = ""
  · simp [handleSubmit, ht] at h
  · have hs : s = trim input := by simpa [handleSubmit, ht] using h
    subst hs
    exact ⟨ht, fun db => rfl⟩

/-- Witness for C9: the call issued by submitting `" hi "` creates an
uncompleted record with text `"hi"`. -/
theorem add_call_nonempty_uncompleted_witness :
    (add db0 "hi").rows = db0.rows ++ [⟨db0.nextId, db0.nextTime, "hi", false⟩] :=
  (add_call_nonempty_uncompleted " hi " "hi" (by decide)).2 db0

/-- C10: the checkbox handler passes only the record's `_id`, so the call —
and hence the store transition — is identical for any two client-rendered
snapshots sharing that `_id` (in particular ones differing only in the
observed checkbox state), and the value written is the negation of the value
currently stored on the platform. -/
theorem toggle_ignores_client_view (db : DB) (t1 t2 : Todo)
    (hid : t1._id = t2._id) (hnd : (db.rows.map Todo._id).Nodup) :
    onChangeCall t1 = onChangeCall t2 ∧
    applyCall db (onChangeCall t1) = applyCall db (onChangeCall t2) ∧
    ∀ u ∈ db.rows, u._id = t1._id →
      toggle db t1._id = Except.ok (db.patchCompleted t1._id (!u.isCompleted)) ∧
      (db.patchCompleted t1._id (!u.isCompleted)).get t1._id =
        some { u with isCompleted := !u.isCompleted } := by
  have hc : onChangeCall t1 = onChangeCall t2 := by simp [onChangeCall, hid]
  refine ⟨hc, by rw [hc], ?_⟩
  intro u hu huid
  rw [← huid]
  exact ⟨(toggle_step db u hnd hu).1, (toggle_step db u hnd hu).2.2.1⟩

/-- Witness for C10: two snapshots of the stored todo differing only in the
observed checkbox state yield the same call and the same store transition. -/
theorem toggle_ignores_client_view_witness :
    onChangeCall t0 = onChangeCall { t0 with isCompleted := true } ∧
    applyCall db0 (onChangeCall t0) =
      applyCall db0 (onChangeCall { t0 with isCompleted := true }) := by
  have h := toggle_ignores_client_view db0 t0 { t0 with isCompleted := true } rfl (by decide)
  exact ⟨h.1, h.2.1⟩
